import Mathlib

/-!
Shallow embedding of the readiness poller in the TinaCMS Docker build script
(`isPortListening`, `isPortListeningFallback`, `waitForTinaServer`), together
with proofs of the specification claims about it.

The socket probe is embedded as a state machine over the four event sources
that race inside `isPortListening`; the fallback is embedded over an abstract
command-execution environment; the poll loop is embedded as a fuel-indexed
recursion that also emits the trace of probe and sleep events, with elapsed
wall-clock time threaded explicitly (probe durations come from the
environment, the sleep adds `CHECK_INTERVAL`).
-/

/-- Configuration constant `TINA_PORT = 4001` of the build script. -/
def TINA_PORT : Nat := 4001

/-- Configuration constant `TINA_HOST = 'localhost'` of the build script. -/
def TINA_HOST : String := "localhost"

/-- Configuration constant `MAX_WAIT_TIME = 60000` (ms) of the build script. -/
def MAX_WAIT_TIME : Nat := 60000

/-- Configuration constant `CHECK_INTERVAL = 2000` (ms) of the build script. -/
def CHECK_INTERVAL : Nat := 2000

/-- The four event sources that race inside `isPortListening`:
the 3000 ms `setTimeout` timer, and the socket events
`connect`, `error` and `timeout`. -/
inductive SockEvent where
  | timerFire
  | connect
  | error
  | sockTimeout

/-- Observable state of one `isPortListening` probe: the `resolved` flag,
whether `clearTimeout` has been called, whether `socket.destroy()` has been
called, and the value passed to `resolve` (if any). -/
structure ProbeState where
  resolved : Bool
  timerCleared : Bool
  socketDestroyed : Bool
  result : Option Bool

/-- Initial probe state: `resolved = false`, timer pending, socket open,
promise pending. -/
def initProbeState : ProbeState := ⟨false, false, false, none⟩

/-- One event-handler dispatch, translated clause by clause from the handlers
registered in `isPortListening`.  Each handler first checks the `resolved`
flag and does nothing when it is already set.  The `setTimeout` handler
destroys the socket and resolves `false` (the timer has fired, so it is not
cleared); the `connect` handler clears the timer, destroys the socket and
resolves `true`; the `error` handler clears the timer and resolves `false`
(it does not call `socket.destroy()`); the socket `timeout` handler clears
the timer, destroys the socket and resolves `false`. -/
def socketEventStep (s : ProbeState) : SockEvent → ProbeState
  | SockEvent.timerFire =>
      if s.resolved then s else ⟨true, s.timerCleared, true, some false⟩
  | SockEvent.connect =>
      if s.resolved then s else ⟨true, true, true, some true⟩
  | SockEvent.error =>
      if s.resolved then s else ⟨true, true, s.socketDestroyed, some false⟩
  | SockEvent.sockTimeout =>
      if s.resolved then s else ⟨true, true, true, some false⟩

/-- `isPortListening`, as a function of the sequence of events that fire,
in firing order, during one probe. -/
def isPortListening (evs : List SockEvent) : ProbeState :=
  List.foldl socketEventStep initProbeState evs

/-- The boolean a probe resolves with when the given event wins the race:
`connect` resolves `true`, every other event resolves `false`. -/
def eventResult : SockEvent → Bool
  | SockEvent.connect => true
  | SockEvent.timerFire => false
  | SockEvent.error => false
  | SockEvent.sockTimeout => false

/-- `port.toString(16)`: the lowercase hexadecimal rendering used for the
kernel TCP-table scan. -/
def toHex (n : Nat) : String := String.mk (Nat.toDigits 16 n)

/-- Leading part of the first fallback command of `isPortListeningFallback`. -/
def grepSS : String := "ss -tuln | grep "

/-- Leading part of the second fallback command. -/
def grepNetstat : String := "netstat -tuln | grep "

/-- Leading part of the third fallback command. -/
def lsofBase : String := "lsof -i "

/-- Leading part of the fourth fallback command. -/
def grepProcTcp : String := "cat /proc/net/tcp | grep "

/-- The colon that precedes the port in every fallback command. -/
def colon : String := ":"

/-- The ordered command list of `isPortListeningFallback`: `ss`, `netstat`
and `lsof` with the decimal port, then the kernel TCP table with the port in
lowercase hex. -/
def fallbackCommands (port : Nat) : List String :=
  [grepSS ++ colon ++ toString port,
   grepNetstat ++ colon ++ toString port,
   lsofBase ++ colon ++ toString port,
   grepProcTcp ++ colon ++ toHex port]

/-- Whitespace test used by `stdout.trim()`. -/
def wsChar (c : Char) : Bool := c.isWhitespace

/-- `stdout.trim()`: the string without leading and trailing whitespace. -/
def strTrim (s : String) : String :=
  String.mk (List.reverse (List.dropWhile wsChar
    (List.reverse (List.dropWhile wsChar s.toList))))

/-- The `for (const command of commands)` loop of `isPortListeningFallback`:
run each command via `execAsync` (`none` models a rejected promise, i.e. a
non-zero exit or missing tool); on success return `true` when the trimmed
stdout is non-empty, otherwise continue with the next command; return
`false` when the list is exhausted. -/
def tryCommands (ex : String → Option String) : List String → Bool
  | [] => false
  | c :: rest =>
      match ex c with
      | some out => if strTrim out = "" then tryCommands ex rest else true
      | none => tryCommands ex rest

/-- `isPortListeningFallback`, over an abstract command-execution
environment `ex`. -/
def isPortListeningFallback (ex : String → Option String) (port : Nat) : Bool :=
  tryCommands ex (fallbackCommands port)

/-- `listStartsWith pat s` is true when `pat` is an initial segment of `s`. -/
def listStartsWith : List Char → List Char → Bool
  | [], _ => true
  | _ :: _, [] => false
  | a :: as, b :: bs => a == b && listStartsWith as bs

/-- `listHasSub pat s` is true when `pat` occurs contiguously inside `s`. -/
def listHasSub (pat : List Char) : List Char → Bool
  | [] => List.isEmpty pat
  | c :: rest => listStartsWith pat (c :: rest) || listHasSub pat rest

/-- `strHasSub s pat`: `s` contains `pat` as a contiguous substring. -/
def strHasSub (s pat : String) : Bool := listHasSub pat.toList s.toList

/-- `strDrop s n`: `s` without its first `n` characters. -/
def strDrop (s : String) (n : Nat) : String := String.mk (List.drop n s.toList)

/-- The newline separating the lines of a command's stdout. -/
def nlStr : String := "\n"

/-- Modelled from the spec: the `| grep PAT` stage of the fallback pipelines.
`grep` exits non-zero with empty output when no input line contains the
pattern (modelled as `none`), and otherwise prints exactly the matching
lines. -/
def grepOutput (pat : String) (lines : List String) : Option String :=
  let hits := List.filter (fun l => strHasSub l pat) lines
  if List.isEmpty hits then none else some (String.intercalate nlStr hits)

/-- Modelled from the spec: one `ss` listing line (text form) for a listener
bound to the given port, as fed into the grep stage of the first fallback
command. -/
def ssLine (p : Nat) : String :=
  "tcp LISTEN 0 128 0.0.0.0:" ++ toString p ++ " 0.0.0.0:*"

/-- Modelled from the spec: a command-execution environment in which only the
`ss` pipeline is available.  A command starting with the `ss`-pipeline text is
answered by grepping its pattern (everything after that text) over the given
listing lines; every other command fails. -/
def ssOnlyExec (lines : List String) (cmd : String) : Option String :=
  if listStartsWith grepSS.toList cmd.toList then
    grepOutput (strDrop cmd (List.length grepSS.toList)) lines
  else none

/-- Per-attempt behaviour of the outside world as seen by one iteration of
`waitForTinaServer`: the result and duration (ms) of the primary socket probe
and of the fallback probe at that attempt index. -/
structure ProbeBehavior where
  primary : Bool
  primaryMs : Nat
  fallback : Bool
  fallbackMs : Nat

/-- Observable steps of one `waitForTinaServer` run: the two probe calls
(with the host and port they are given and the result they report) and the
`setTimeout` sleep between retries (with its duration). -/
inductive Event where
  | probePrimary (host : String) (port : Nat) (result : Bool)
  | probeFallback (host : String) (port : Nat) (result : Bool)
  | sleep (ms : Nat)

/-- Outcome of `waitForTinaServer`: normal return after a successful probe
(carrying the attempt count it logs), or the thrown timeout error (carrying
the configured wait budget and the attempt count it reports; the thrown
message renders the budget as `maxWaitTime / 1000` seconds). -/
inductive PollResult where
  | ready (attempts : Nat)
  | timeoutFailure (maxWaitMs : Nat) (attempts : Nat)

/-- Whether a poll outcome is the successful return. -/
def PollResult.isReady : PollResult → Bool
  | PollResult.ready _ => true
  | PollResult.timeoutFailure _ _ => false

/-- The configuration a poll run consumes: probe target and timing budget. -/
structure Config where
  host : String
  port : Nat
  maxWaitMs : Nat
  intervalMs : Nat

/-- The `while (Date.now() - startTime < maxWaitTime)` loop of
`waitForTinaServer`.  `elapsed` is `Date.now() - startTime`; each iteration
increments the attempt counter, runs the primary probe (returning on
success), otherwise the fallback probe (returning on success), and otherwise
adds the probe durations plus the sleep to the elapsed time and re-enters the
loop; when the guard fails the timeout error is thrown with the attempt
count.  `fuel` bounds the number of iterations so that the recursion is
total; `none` means the bound was hit before the loop exited. -/
def waitLoop (env : Nat → ProbeBehavior) (cfg : Config) :
    Nat → Nat → Nat → Option (PollResult × List Event)
  | 0, _, _ => none
  | fuel + 1, elapsed, attempts =>
      if elapsed < cfg.maxWaitMs then
        if (env attempts).primary then
          some (PollResult.ready (attempts + 1),
            [Event.probePrimary cfg.host cfg.port true])
        else if (env attempts).fallback then
          some (PollResult.ready (attempts + 1),
            [Event.probePrimary cfg.host cfg.port false,
             Event.probeFallback cfg.host cfg.port true])
        else
          Option.map
            (fun p => (p.1,
              Event.probePrimary cfg.host cfg.port false ::
              Event.probeFallback cfg.host cfg.port false ::
              Event.sleep cfg.intervalMs :: p.2))
            (waitLoop env cfg fuel
              (elapsed + (env attempts).primaryMs + (env attempts).fallbackMs
                + cfg.intervalMs)
              (attempts + 1))
      else
        some (PollResult.timeoutFailure cfg.maxWaitMs attempts, [])

/-- The configuration `waitForTinaServer` runs with: the module constants
`TINA_HOST`, `TINA_PORT`, `CHECK_INTERVAL` and its `maxWaitTime` argument. -/
def tinaConfig (maxWaitTime : Nat) : Config :=
  ⟨TINA_HOST, TINA_PORT, maxWaitTime, CHECK_INTERVAL⟩

/-- `waitForTinaServer(maxWaitTime)`: run the poll loop from elapsed time 0
and attempt counter 0.  Since every failed iteration advances elapsed time by
at least `CHECK_INTERVAL ≥ 1` ms, `maxWaitTime + 1` iterations always
suffice (proved below). -/
def waitForTinaServer (env : Nat → ProbeBehavior) (maxWaitTime : Nat) :
    Option (PollResult × List Event) :=
  waitLoop env (tinaConfig maxWaitTime) (maxWaitTime + 1) 0 0

/-- Projection of a poll run onto its outcome. -/
def pollResultOf : Option (PollResult × List Event) → Option PollResult
  | some p => some p.1
  | none => none

/-- Written from the spec's description of the loop body: a trace is
well-formed for configuration `cfg` and outcome `r` when it is a sequence of
failed iterations — primary probe on `cfg`'s target reporting `false`, then
fallback probe reporting `false`, then a sleep of `cfg.intervalMs` — ending
either in nothing (deadline exit, so `r` is a failure), in a single primary
probe reporting `true` (immediate success without fallback), or in a failed
primary probe followed by a successful fallback probe (immediate success). -/
def specPollTrace (cfg : Config) (r : PollResult) : List Event → Bool
  | [] => !r.isReady
  | [Event.probePrimary h p true] =>
      decide (h = cfg.host) && decide (p = cfg.port) && r.isReady
  | [Event.probePrimary h p false, Event.probeFallback h2 p2 true] =>
      decide (h = cfg.host) && decide (p = cfg.port) &&
      decide (h2 = cfg.host) && decide (p2 = cfg.port) && r.isReady
  | Event.probePrimary h p false :: Event.probeFallback h2 p2 false ::
      Event.sleep ms :: rest =>
      decide (h = cfg.host) && decide (p = cfg.port) &&
      decide (h2 = cfg.host) && decide (p2 = cfg.port) &&
      decide (ms = cfg.intervalMs) && specPollTrace cfg r rest
  | _ => false

/-- An event consumes the supplied configuration: probes are directed at
`cfg`'s host and port, sleeps last `cfg.intervalMs`. -/
def eventUsesConfig (cfg : Config) : Event → Bool
  | Event.probePrimary h p _ => decide (h = cfg.host) && decide (p = cfg.port)
  | Event.probeFallback h p _ => decide (h = cfg.host) && decide (p = cfg.port)
  | Event.sleep ms => decide (ms = cfg.intervalMs)

/-- Whether an event is a primary-probe call (one per loop iteration). -/
def Event.isPrimaryProbe : Event → Bool
  | Event.probePrimary _ _ _ => true
  | Event.probeFallback _ _ _ => false
  | Event.sleep _ => false

/-- Whether an event is a probe that reported the port reachable. -/
def Event.isHit : Event → Bool
  | Event.probePrimary _ _ res => res
  | Event.probeFallback _ _ res => res
  | Event.sleep _ => false

/-- Environment in which every probe fails instantly (no listener). -/
def envAllFail : Nat → ProbeBehavior := fun _ => ⟨false, 0, false, 0⟩

/-- Environment in which the primary probe fails and the fallback succeeds. -/
def envFallbackHit : Nat → ProbeBehavior := fun _ => ⟨false, 0, true, 0⟩

theorem socketEventStep_of_resolved (s : ProbeState) (e : SockEvent)
    (hs : s.resolved = true) : socketEventStep s e = s := by
  cases e <;> simp [socketEventStep, hs]

theorem socketEventStep_resolves (e : SockEvent) :
    (socketEventStep initProbeState e).resolved = true := by
  cases e <;> rfl

theorem foldl_socketEventStep_fixed (s : ProbeState) (hs : s.resolved = true) :
    ∀ evs : List SockEvent, List.foldl socketEventStep s evs = s := by
  intro evs
  induction evs with
  | nil => rfl
  | cons e rest ih =>
      rw [List.foldl_cons, socketEventStep_of_resolved s e hs]
      exact ih

/-- Claim C5: in `isPortListening` the racing outcomes are mutually
exclusive.  Whatever event fires first fully determines the final probe
state — the `resolved` flag makes every later event a no-op — so the probe
resolves exactly once, with the value of the first event (`true` for
`connect`, `false` for error and for either timeout source). -/
theorem isPortListening_first_event_wins (e : SockEvent) (evs : List SockEvent) :
    isPortListening (e :: evs) = socketEventStep initProbeState e ∧
    (isPortListening (e :: evs)).result = some (eventResult e) := by
  have h1 : isPortListening (e :: evs) = socketEventStep initProbeState e := by
    show List.foldl socketEventStep initProbeState (e :: evs) = _
    rw [List.foldl_cons]
    exact foldl_socketEventStep_fixed _ (socketEventStep_resolves e) evs
  refine ⟨h1, ?_⟩
  rw [h1]
  cases e <;> rfl

/-- Claim C4 (code bug): evaluation of `isPortListening` at its three exit
paths.  On the `connect` path and on both timeout paths the socket is
destroyed before the probe resolves, but on the `error` path the probe
resolves `false` while `socket.destroy()` has never been called: the error
handler clears the timer and resolves without destroying the socket. -/
theorem isPortListening_error_leaves_socket :
    (isPortListening [SockEvent.error]).result = some false ∧
    (isPortListening [SockEvent.error]).socketDestroyed = false ∧
    (isPortListening [SockEvent.connect]).socketDestroyed = true ∧
    (isPortListening [SockEvent.timerFire]).socketDestroyed = true ∧
    (isPortListening [SockEvent.sockTimeout]).socketDestroyed = true := by
  exact ⟨rfl, rfl, rfl, rfl, rfl⟩

theorem tryCommands_eq_true_iff (ex : String → Option String) :
    ∀ cs : List String, tryCommands ex cs = true ↔
      ∃ c ∈ cs, ∃ out, ex c = some out ∧ strTrim out ≠ "" := by
  intro cs
  induction cs with
  | nil => simp [tryCommands]
  | cons c rest ih =>
      simp only [tryCommands]
      cases hex : ex c with
      | none =>
          change tryCommands ex rest = true ↔ _
          rw [ih]
          constructor
          · rintro ⟨d, hd, out, hout, hne⟩
            exact ⟨d, List.mem_cons_of_mem c hd, out, hout, hne⟩
          · rintro ⟨d, hd, out, hout, hne⟩
            rcases List.mem_cons.mp hd with h | h
            · subst h
              rw [hex] at hout
              cases hout
            · exact ⟨d, h, out, hout, hne⟩
      | some out =>
          change (if strTrim out = "" then tryCommands ex rest else true) = true ↔ _
          by_cases ht : strTrim out = ""
          · rw [if_pos ht, ih]
            constructor
            · rintro ⟨d, hd, o, ho, hne⟩
              exact ⟨d, List.mem_cons_of_mem c hd, o, ho, hne⟩
            · rintro ⟨d, hd, o, ho, hne⟩
              rcases List.mem_cons.mp hd with h | h
              · subst h
                rw [hex] at ho
                cases ho
                exact absurd ht hne
              · exact ⟨d, h, o, ho, hne⟩
          · rw [if_neg ht]
            constructor
            · intro _
              exact ⟨c, List.mem_cons_self c rest, out, hex, ht⟩
            · intro _
              rfl

/-- Claim C3: `isPortListeningFallback` reports the port reachable exactly
when at least one of its four commands — `ss`, `netstat` and `lsof` built
with the decimal port, then the kernel TCP-table scan built with the port in
lowercase hexadecimal, in that order — executes without error and produces
output that is non-empty after trimming; when every command fails or prints
nothing it reports unreachable. -/
theorem isPortListeningFallback_iff (ex : String → Option String) (port : Nat) :
    isPortListeningFallback ex port = true ↔
      ∃ c ∈ [grepSS ++ colon ++ toString port,
             grepNetstat ++ colon ++ toString port,
             lsofBase ++ colon ++ toString port,
             grepProcTcp ++ colon ++ toHex port],
        ∃ out, ex c = some out ∧ strTrim out ≠ "" := by
  exact tryCommands_eq_true_iff ex (fallbackCommands port)

/-- Claim C10: the fallback matches the port by textual pattern, not exact
equality.  In an environment whose only listener is on port 8080 (so the
queried port 80 is not among the listener ports), the `ss` pipeline greps
for `:80`, which occurs inside `:8080`, so `isPortListeningFallback` reports
port 80 reachable; the decimal rendering of 8080 begins with that of 80. -/
theorem fallback_matches_superstring_port :
    isPortListeningFallback (ssOnlyExec (List.map ssLine [8080])) 80 = true ∧
    List.contains [8080] 80 = false ∧
    listStartsWith (String.toList (toString 80)) (String.toList (toString 8080)) = true := by
  exact ⟨by decide, by decide, by decide⟩

/-- Claim C1: every run of the poll loop follows the spec's iteration
discipline.  Whatever trace a terminating run produces is a sequence of
failed iterations (primary probe first, reporting unreachable, then the
fallback probe reporting unreachable, then a sleep of the configured
interval), optionally ended by a success: either a primary probe reporting
reachable — after which nothing more happens, in particular no fallback —
or a failed primary probe followed by a fallback probe reporting reachable;
a trace with no final successful probe belongs to a timeout failure. -/
theorem waitLoop_follows_spec (env : Nat → ProbeBehavior) (cfg : Config) :
    ∀ (fuel elapsed attempts : Nat) (r : PollResult) (tr : List Event),
      waitLoop env cfg fuel elapsed attempts = some (r, tr) →
      specPollTrace cfg r tr = true := by
  intro fuel
  induction fuel with
  | zero =>
      intro elapsed attempts r tr h
      exact absurd h (by simp [waitLoop])
  | succ f ih =>
      intro elapsed attempts r tr h
      rw [waitLoop] at h
      by_cases hg : elapsed < cfg.maxWaitMs
      · rw [if_pos hg] at h
        by_cases hp : (env attempts).primary = true
        · rw [if_pos hp] at h
          simp only [Option.some.injEq, Prod.mk.injEq] at h
          obtain ⟨rfl, rfl⟩ := h
          simp [specPollTrace, PollResult.isReady]
        · rw [if_neg hp] at h
          by_cases hf : (env attempts).fallback = true
          · rw [if_pos hf] at h
            simp only [Option.some.injEq, Prod.mk.injEq] at h
            obtain ⟨rfl, rfl⟩ := h
            simp [specPollTrace, PollResult.isReady]
          · rw [if_neg hf] at h
            cases hw : waitLoop env cfg f
                (elapsed + (env attempts).primaryMs + (env attempts).fallbackMs
                  + cfg.intervalMs) (attempts + 1) with
            | none =>
                rw [hw] at h
                cases h
            | some p =>
                obtain ⟨r2, tr2⟩ := p
                rw [hw] at h
                simp only [Option.map, Option.some.injEq, Prod.mk.injEq] at h
                obtain ⟨rfl, rfl⟩ := h
                have hspec := ih _ _ r2 tr2 hw
                simp [specPollTrace, hspec]
      · rw [if_neg hg] at h
        simp only [Option.some.injEq, Prod.mk.injEq] at h
        obtain ⟨rfl, rfl⟩ := h
        simp [specPollTrace, PollResult.isReady]

/-- Witness for C1: a concrete two-probe run (primary fails, fallback
succeeds) whose trace satisfies the spec's iteration discipline. -/
theorem waitLoop_follows_spec_witness :
    specPollTrace (tinaConfig 1) (PollResult.ready 1)
      [Event.probePrimary TINA_HOST TINA_PORT false,
       Event.probeFallback TINA_HOST TINA_PORT true] = true :=
  waitLoop_follows_spec envFallbackHit (tinaConfig 1) 2 0 0 (PollResult.ready 1)
    [Event.probePrimary TINA_HOST TINA_PORT false,
     Event.probeFallback TINA_HOST TINA_PORT true] rfl

theorem waitLoop_isSome_of_fuel (env : Nat → ProbeBehavior) (cfg : Config)
    (hInt : 1 ≤ cfg.intervalMs) :
    ∀ fuel elapsed attempts : Nat, 1 ≤ fuel → cfg.maxWaitMs < elapsed + fuel →
      (waitLoop env cfg fuel elapsed attempts).isSome = true := by
  intro fuel
  induction fuel with
  | zero =>
      intro elapsed attempts h1 _
      exact absurd h1 (by decide)
  | succ f ih =>
      intro elapsed attempts _ hlt
      rw [waitLoop]
      by_cases hg : elapsed < cfg.maxWaitMs
      · rw [if_pos hg]
        by_cases hp : (env attempts).primary = true
        · rw [if_pos hp]
          rfl
        · rw [if_neg hp]
          by_cases hf : (env attempts).fallback = true
          · rw [if_pos hf]
            rfl
          · rw [if_neg hf]
            have hs := ih
              (elapsed + (env attempts).primaryMs + (env attempts).fallbackMs
                + cfg.intervalMs)
              (attempts + 1) (by omega) (by omega)
            cases hw : waitLoop env cfg f
                (elapsed + (env attempts).primaryMs + (env attempts).fallbackMs
                  + cfg.intervalMs) (attempts + 1) with
            | none =>
                rw [hw] at hs
                cases hs
            | some p =>
                rfl
      · rw [if_neg hg]
        rfl

/-- Claim C2: the poll loop always terminates.  For every probe-outcome
environment and every `maxWaitTime`, `waitForTinaServer` yields an outcome
(success or timeout failure) together with its finite trace: since each
failed iteration sleeps `CHECK_INTERVAL = 2000 ≥ 1` ms, elapsed time
strictly grows and the loop cannot poll past its deadline indefinitely. -/
theorem waitForTinaServer_terminates (env : Nat → ProbeBehavior)
    (maxWaitTime : Nat) :
    ∃ r tr, waitForTinaServer env maxWaitTime = some (r, tr) := by
  have hs : (waitLoop env (tinaConfig maxWaitTime) (maxWaitTime + 1) 0 0).isSome
      = true := by
    apply waitLoop_isSome_of_fuel env (tinaConfig maxWaitTime)
      (show (1 : Nat) ≤ CHECK_INTERVAL by decide)
    · omega
    · show maxWaitTime < 0 + (maxWaitTime + 1)
      omega
  rw [waitForTinaServer]
  cases hw : waitLoop env (tinaConfig maxWaitTime) (maxWaitTime + 1) 0 0 with
  | none =>
      rw [hw] at hs
      cases hs
  | some p =>
      exact ⟨p.1, p.2, rfl⟩

/-- Claim C6: the poll loop consumes the supplied configuration.  Every
event of any terminating run's trace uses it: both the primary and the
fallback probe are directed at the configured host and port, and every
sleep between retries lasts the configured interval. -/
theorem waitLoop_uses_config (env : Nat → ProbeBehavior) (cfg : Config) :
    ∀ (fuel elapsed attempts : Nat) (r : PollResult) (tr : List Event),
      waitLoop env cfg fuel elapsed attempts = some (r, tr) →
      List.all tr (eventUsesConfig cfg) = true := by
  intro fuel
  induction fuel with
  | zero =>
      intro elapsed attempts r tr h
      exact absurd h (by simp [waitLoop])
  | succ f ih =>
      intro elapsed attempts r tr h
      rw [waitLoop] at h
      by_cases hg : elapsed < cfg.maxWaitMs
      · rw [if_pos hg] at h
        by_cases hp : (env attempts).primary = true
        · rw [if_pos hp] at h
          simp only [Option.some.injEq, Prod.mk.injEq] at h
          obtain ⟨rfl, rfl⟩ := h
          simp [eventUsesConfig]
        · rw [if_neg hp] at h
          by_cases hf : (env attempts).fallback = true
          · rw [if_pos hf] at h
            simp only [Option.some.injEq, Prod.mk.injEq] at h
            obtain ⟨rfl, rfl⟩ := h
            simp [eventUsesConfig]
          · rw [if_neg hf] at h
            cases hw : waitLoop env cfg f
                (elapsed + (env attempts).primaryMs + (env attempts).fallbackMs
                  + cfg.intervalMs) (attempts + 1) with
            | none =>
                rw [hw] at h
                cases h
            | some p =>
                obtain ⟨r2, tr2⟩ := p
                rw [hw] at h
                simp only [Option.map, Option.some.injEq, Prod.mk.injEq] at h
                obtain ⟨rfl, rfl⟩ := h
                have hall := ih _ _ r2 tr2 hw
                simp [List.all_cons, eventUsesConfig, hall]
      · rw [if_neg hg] at h
        simp only [Option.some.injEq, Prod.mk.injEq] at h
        obtain ⟨rfl, rfl⟩ := h
        simp

/-- Witness for C6: the trace of a concrete run consists of events that all
use the supplied configuration. -/
theorem waitLoop_uses_config_witness :
    List.all
      [Event.probePrimary TINA_HOST TINA_PORT false,
       Event.probeFallback TINA_HOST TINA_PORT true]
      (eventUsesConfig (tinaConfig 1)) = true :=
  waitLoop_uses_config envFallbackHit (tinaConfig 1) 2 0 0 (PollResult.ready 1)
    [Event.probePrimary TINA_HOST TINA_PORT false,
     Event.probeFallback TINA_HOST TINA_PORT true] rfl

theorem waitLoop_result_char (env : Nat → ProbeBehavior) (cfg : Config) :
    ∀ (fuel elapsed a0 : Nat) (r : PollResult) (tr : List Event),
      waitLoop env cfg fuel elapsed a0 = some (r, tr) →
      r.isReady = List.any tr Event.isHit ∧
      (r.isReady = false →
        r = PollResult.timeoutFailure cfg.maxWaitMs
              (a0 + List.length (List.filter Event.isPrimaryProbe tr))) := by
  intro fuel
  induction fuel with
  | zero =>
      intro elapsed a0 r tr h
      exact absurd h (by simp [waitLoop])
  | succ f ih =>
      intro elapsed a0 r tr h
      rw [waitLoop] at h
      by_cases hg : elapsed < cfg.maxWaitMs
      · rw [if_pos hg] at h
        by_cases hp : (env a0).primary = true
        · rw [if_pos hp] at h
          simp only [Option.some.injEq, Prod.mk.injEq] at h
          obtain ⟨rfl, rfl⟩ := h
          refine ⟨by simp [PollResult.isReady, Event.isHit], ?_⟩
          intro hc
          simp [PollResult.isReady] at hc
        · rw [if_neg hp] at h
          by_cases hf : (env a0).fallback = true
          · rw [if_pos hf] at h
            simp only [Option.some.injEq, Prod.mk.injEq] at h
            obtain ⟨rfl, rfl⟩ := h
            refine ⟨by simp [PollResult.isReady, Event.isHit], ?_⟩
            intro hc
            simp [PollResult.isReady] at hc
          · rw [if_neg hf] at h
            cases hw : waitLoop env cfg f
                (elapsed + (env a0).primaryMs + (env a0).fallbackMs
                  + cfg.intervalMs) (a0 + 1) with
            | none =>
                rw [hw] at h
                cases h
            | some p =>
                obtain ⟨r2, tr2⟩ := p
                rw [hw] at h
                simp only [Option.map, Option.some.injEq, Prod.mk.injEq] at h
                obtain ⟨rfl, rfl⟩ := h
                obtain ⟨ih1, ih2⟩ := ih _ _ r2 tr2 hw
                constructor
                · simpa [Event.isHit] using ih1
                · intro hnr
                  rw [ih2 hnr]
                  have hlen : List.length (List.filter Event.isPrimaryProbe
                      (Event.probePrimary cfg.host cfg.port false ::
                       Event.probeFallback cfg.host cfg.port false ::
                       Event.sleep cfg.intervalMs :: tr2)) =
                      1 + List.length (List.filter Event.isPrimaryProbe tr2) := by
                    simp [List.filter, Event.isPrimaryProbe]
                    omega
                  rw [hlen]
                  congr 1
                  omega
      · rw [if_neg hg] at h
        simp only [Option.some.injEq, Prod.mk.injEq] at h
        obtain ⟨rfl, rfl⟩ := h
        exact ⟨rfl, fun _ => by simp⟩

/-- Claim C7: `waitForTinaServer` fails exactly when the deadline runs out
with no successful probe.  The run succeeds precisely when some probe in its
trace reported reachable; when it does not succeed, the outcome is the
timeout failure carrying the configured wait budget `maxWaitTime` and the
number of attempts made (one primary probe per attempt); individual
unreachable probe outcomes never surface as a failure by themselves. -/
theorem waitForTinaServer_failure_character (env : Nat → ProbeBehavior)
    (maxWaitTime : Nat) (r : PollResult) (tr : List Event)
    (h : waitForTinaServer env maxWaitTime = some (r, tr)) :
    r.isReady = List.any tr Event.isHit ∧
    (r.isReady = false →
      r = PollResult.timeoutFailure maxWaitTime
            (List.length (List.filter Event.isPrimaryProbe tr))) := by
  obtain ⟨h1, h2⟩ := waitLoop_result_char env (tinaConfig maxWaitTime)
    (maxWaitTime + 1) 0 0 r tr h
  refine ⟨h1, fun hnr => ?_⟩
  have h3 := h2 hnr
  simpa [tinaConfig] using h3

/-- Witness for C7: a concrete all-unreachable run whose outcome is the
timeout failure carrying the budget and the attempt count of its trace. -/
theorem waitForTinaServer_failure_character_witness :
    (PollResult.timeoutFailure 1 1).isReady =
      List.any [Event.probePrimary TINA_HOST TINA_PORT false,
                Event.probeFallback TINA_HOST TINA_PORT false,
                Event.sleep CHECK_INTERVAL] Event.isHit ∧
    ((PollResult.timeoutFailure 1 1).isReady = false →
      PollResult.timeoutFailure 1 1 =
        PollResult.timeoutFailure 1
          (List.length (List.filter Event.isPrimaryProbe
            [Event.probePrimary TINA_HOST TINA_PORT false,
             Event.probeFallback TINA_HOST TINA_PORT false,
             Event.sleep CHECK_INTERVAL]))) :=
  waitForTinaServer_failure_character envAllFail 1 (PollResult.timeoutFailure 1 1)
    [Event.probePrimary TINA_HOST TINA_PORT false,
     Event.probeFallback TINA_HOST TINA_PORT false,
     Event.sleep CHECK_INTERVAL] rfl

/-- Claim C8: with a zero (already expired) wait budget the poller fails
immediately: the loop guard is false at entry, so `waitForTinaServer`
throws the timeout failure with zero attempts and an empty trace — no
probe is run before failing. -/
theorem waitForTinaServer_zero_wait (env : Nat → ProbeBehavior) :
    waitForTinaServer env 0 = some (PollResult.timeoutFailure 0 0, []) := rfl

theorem waitLoop_allFalse_bound (env : Nat → ProbeBehavior)
    (hAll : ∀ n, (env n).primary = false ∧ (env n).fallback = false) :
    ∀ (fuel elapsed a0 : Nat) (r : PollResult) (tr : List Event),
      waitLoop env (tinaConfig 3000) fuel elapsed a0 = some (r, tr) →
      ∃ n, r = PollResult.timeoutFailure 3000 n ∧ a0 ≤ n ∧
        ((n = a0 ∧ ¬ elapsed < 3000) ∨
         (a0 + 1 ≤ n ∧ elapsed + (n - a0 - 1) * 2000 < 3000)) := by
  intro fuel
  induction fuel with
  | zero =>
      intro elapsed a0 r tr h
      exact absurd h (by simp [waitLoop])
  | succ f ih =>
      intro elapsed a0 r tr h
      rw [waitLoop] at h
      by_cases hg : elapsed < (tinaConfig 3000).maxWaitMs
      · rw [if_pos hg] at h
        rw [if_neg (show ¬ (env a0).primary = true by simp [(hAll a0).1])] at h
        rw [if_neg (show ¬ (env a0).fallback = true by simp [(hAll a0).2])] at h
        cases hw : waitLoop env (tinaConfig 3000) f
            (elapsed + (env a0).primaryMs + (env a0).fallbackMs
              + (tinaConfig 3000).intervalMs) (a0 + 1) with
        | none =>
            rw [hw] at h
            cases h
        | some p =>
            obtain ⟨r2, tr2⟩ := p
            rw [hw] at h
            simp only [Option.map, Option.some.injEq, Prod.mk.injEq] at h
            obtain ⟨rfl, rfl⟩ := h
            obtain ⟨n, hn, hle, hdisj⟩ := ih _ _ r2 tr2 hw
            have hg3 : elapsed < 3000 := by simpa [tinaConfig] using hg
            have hint : (tinaConfig 3000).intervalMs = 2000 := rfl
            refine ⟨n, hn, by omega, Or.inr ⟨by omega, ?_⟩⟩
            rcases hdisj with ⟨hna, _⟩ | ⟨hn1, hlt⟩
            · have : n - a0 - 1 = 0 := by omega
              rw [this]
              omega
            · rw [hint] at hlt
              omega
      · rw [if_neg hg] at h
        simp only [Option.some.injEq, Prod.mk.injEq] at h
        obtain ⟨rfl, rfl⟩ := h
        have hg3 : ¬ elapsed < 3000 := by simpa [tinaConfig] using hg
        exact ⟨a0, rfl, Nat.le_refl a0, Or.inl ⟨rfl, hg3⟩⟩

/-- Claim C9: against a port with no listener — every primary and fallback
probe reports unreachable, whatever time each probe takes — a run with
`maxWaitMs = 3000` and the script's `intervalMs = 2000` ends in the timeout
failure after exactly 1 or 2 attempts (1 when the first iteration's probe
time pushes elapsed time to the deadline, 2 otherwise). -/
theorem waitForTinaServer_no_listener_short_budget (env : Nat → ProbeBehavior)
    (hAll : ∀ n, (env n).primary = false ∧ (env n).fallback = false) :
    pollResultOf (waitForTinaServer env 3000) =
        some (PollResult.timeoutFailure 3000 1) ∨
    pollResultOf (waitForTinaServer env 3000) =
        some (PollResult.timeoutFailure 3000 2) := by
  have hs : (waitLoop env (tinaConfig 3000) (3000 + 1) 0 0).isSome = true := by
    apply waitLoop_isSome_of_fuel env (tinaConfig 3000)
      (show (1 : Nat) ≤ CHECK_INTERVAL by decide)
    · omega
    · show (3000 : Nat) < 0 + (3000 + 1)
      omega
  cases hw : waitLoop env (tinaConfig 3000) (3000 + 1) 0 0 with
  | none =>
      rw [hw] at hs
      cases hs
  | some p =>
      obtain ⟨r, tr⟩ := p
      obtain ⟨n, hr, h0, hdisj⟩ := waitLoop_allFalse_bound env hAll
        (3000 + 1) 0 0 r tr hw
      have hpoll : pollResultOf (waitForTinaServer env 3000) = some r := by
        show pollResultOf (waitLoop env (tinaConfig 3000) (3000 + 1) 0 0) = some r
        rw [hw]
        rfl
      have hn : n = 1 ∨ n = 2 := by
        rcases hdisj with ⟨_, hbad⟩ | ⟨h1, h2⟩
        · exact absurd (by omega : (0 : Nat) < 3000) hbad
        · omega
      rcases hn with hone | htwo
      · left
        rw [hpoll, hr, hone]
      · right
        rw [hpoll, hr, htwo]

/-- Witness for C9: the concrete no-listener environment with instant
probes makes exactly 2 attempts before the 3000 ms timeout failure. -/
theorem waitForTinaServer_no_listener_short_budget_witness :
    pollResultOf (waitForTinaServer envAllFail 3000) =
        some (PollResult.timeoutFailure 3000 1) ∨
    pollResultOf (waitForTinaServer envAllFail 3000) =
        some (PollResult.timeoutFailure 3000 2) :=
  waitForTinaServer_no_listener_short_budget envAllFail (fun _ => ⟨rfl, rfl⟩)
